import Mathlib

/-
  Verification of the hostname cache (src/lib/core/src/hostname_cache.cpp).

  The cache is a shared-memory ordered map from hostname keys to `alias`
  entries, guarded by a named sharable mutex.  We shallowly embed:

  * the `alias` value type (fixed 256-byte `hostname` buffer, `expiration`
    and `expires_after` timestamps in seconds) as the structure `Alias`,
    with the `strncpy`-based constructor modelled by `mkAlias` /
    `storedHostname` / `strncpyBytesWritten`;
  * the shared `map_type` as an association list `Cache` (the map operations
    used by the code — `find`, `insert_or_assign`, `erase(key)`, iteration
    with `erase(iter)`, `clear`, `size` — are embedded directly);
  * the module-level globals (`g_segment_name`, `g_segment_size`,
    `g_mutex_name`, `g_owner_pid`, `g_segment`, `g_allocator`, `g_mutex`,
    `g_map`) as `GlobalState`, and the OS-level named shared-memory and
    mutex namespaces as `OSNamespace`;
  * `current_timestamp_in_seconds()` / `clock_type::now()` as an explicit
    `now : Int` parameter (seconds since epoch) passed to the operations
    that read the clock.

  Locking is not modelled: every public operation holds the (single) lock
  for its whole body, so each operation is one atomic step on the state.
-/

namespace HostnameCache

/-- The value type mapped to a specific hostname key (struct `alias`).
`hostname` holds the C-string contents of the fixed `char hostname[256]`
buffer; `expiration` is seconds since epoch when the alias expires;
`expiresAfter` is the TTL in seconds supplied at insertion. -/
structure Alias where
  hostname : String
  expiration : Int
  expiresAfter : Int
deriving DecidableEq

/-- Capacity of the fixed `char hostname[256]` buffer in struct `alias`. -/
def HOSTNAME_BUF_SIZE : Nat := 256

/-- Number of bytes written by the constructor's
`std::strncpy(hostname, _key.data(), _key.size())`.  `strncpy` with count
`n` always writes exactly `n` bytes (it copies characters up to the first
NUL and pads the remainder with NULs), and here the count is the SOURCE
length `_key.size()` — not the destination capacity. -/
def strncpyBytesWritten (s : String) : Nat := s.length

/-- Contents of the `hostname` buffer read back as a C string after
construction: the buffer is zero-initialized (`hostname{}`), `strncpy`
copies the source up to its first NUL character, and reading stops at the
first NUL.  (Defined for sources that fit the buffer, i.e. length at most
255; beyond that the C++ code overflows the buffer — see the C6
development below.) -/
def storedHostname (s : String) : String :=
  String.mk (s.data.takeWhile (fun c => c ≠ Char.ofNat 0))

/-- The `alias` constructor: zero-initializes the buffer, copies the alias
string, and stores the precomputed expiration and TTL. -/
def mkAlias (s : String) (expiration expiresAfter : Int) : Alias :=
  { hostname := storedHostname s
    expiration := expiration
    expiresAfter := expiresAfter }

/-- The shared map (`map_type`), embedded as an association list from
hostname key to `alias` entry.  The operations below keep keys unique. -/
abbrev Cache := List (String × Alias)

/-- Keyed search in the map (`g_map->find(key)`). -/
def find (m : Cache) (k : String) : Option Alias :=
  (m.find? (fun p => p.1 == k)).map (fun p => p.2)

/-- Entry count of the map (`g_map->size()`, public `size()`). -/
def size (m : Cache) : Nat := m.length

/-- Public `insert_or_assign(_key, _alias, _expires_after)`: computes
`expiration = now + _expires_after`, then calls the map's
`insert_or_assign`, which overwrites the mapped value when the key is
present and inserts a fresh entry otherwise.  Returns the updated map and
the `inserted` flag the function returns. -/
def insert_or_assign (m : Cache) (k v : String) (now ttl : Int) : Cache × Bool :=
  let entry := mkAlias v (now + ttl) ttl
  if (m.find? (fun p => p.1 == k)).isSome then
    (m.map (fun p => if p.1 == k then (k, entry) else p), false)
  else
    ((k, entry) :: m, true)

/-- Public `lookup(_key)`: finds the entry and returns its hostname buffer
only when `current_timestamp_in_seconds() < iter->second.expiration`;
otherwise returns `std::nullopt`. -/
def lookup (m : Cache) (k : String) (now : Int) : Option String :=
  match find m k with
  | some e => if now < e.expiration then some e.hostname else none
  | none => none

/-- Public `lookup` with the shared state threaded through explicitly:
the function only reads the map (under a sharable lock), so it returns the
state it was given. -/
def lookupState (m : Cache) (k : String) (now : Int) : Option String × Cache :=
  (lookup m k now, m)

/-- Public `erase(_key)`: `g_map->erase(key)` removes the entry for the
key when present; erasing an absent key does nothing. -/
def erase (m : Cache) (k : String) : Cache :=
  m.filter (fun p => p.1 != k)

/-- Public `erase_expired_entries()`: reads `now` once, then iterates the
whole map erasing every entry with `now >= iter->second.expiration` and
keeping the rest. -/
def erase_expired_entries (m : Cache) (now : Int) : Cache :=
  m.filter (fun p => !(decide (now ≥ p.2.expiration)))

/-- Public `clear()`: `g_map->clear()`. -/
def clear (_m : Cache) : Cache := []

/-- The OS namespaces of named shared-memory objects and named sharable
mutexes, recorded as the lists of names of currently existing objects. -/
structure OSNamespace where
  shmObjects : List String
  mutexObjects : List String
deriving DecidableEq

/-- `bi::shared_memory_object::remove(name)`: best-effort removal of the
named shared-memory object (succeeds trivially when absent). -/
def shm_remove (os : OSNamespace) (name : String) : OSNamespace :=
  { os with shmObjects := os.shmObjects.filter (fun n => n != name) }

/-- `bi::named_sharable_mutex::remove(name)`: best-effort removal of the
named mutex object. -/
def mutex_remove (os : OSNamespace) (name : String) : OSNamespace :=
  { os with mutexObjects := os.mutexObjects.filter (fun n => n != name) }

/-- Creation of the named shared-memory object (`bi::create_only`). -/
def shm_create (os : OSNamespace) (name : String) : OSNamespace :=
  { os with shmObjects := name :: os.shmObjects }

/-- Creation of the named mutex object (`bi::create_only`). -/
def mutex_create (os : OSNamespace) (name : String) : OSNamespace :=
  { os with mutexObjects := name :: os.mutexObjects }

/-- The module-level globals of the translation unit.  The three
`unique_ptr` handles and the raw `g_map` pointer are modelled by `Bool`
handle flags and an `Option Cache` respectively (`g_map` carries the map
contents, since the map lives inside the segment the process constructed).
`g_owner_pid` is `0` when no owner is recorded, matching the
zero-initialized global; live process ids are positive. -/
structure GlobalState where
  g_segment_name : String
  g_segment_size : Nat
  g_mutex_name : String
  g_owner_pid : Nat
  g_segment : Bool
  g_allocator : Bool
  g_mutex : Bool
  g_map : Option Cache
deriving DecidableEq

/-- Public `init(_shm_name, _shm_size)` run by process `pid` (`getpid()`):
returns immediately when `pid` equals `g_owner_pid`; otherwise records the
names and size, removes any stale named objects, records `pid` as owner,
creates the segment, allocator and mutex, and constructs a fresh empty map
inside the segment. -/
def init (pid : Nat) (shm_name : String) (shm_size : Nat)
    (g : GlobalState) (os : OSNamespace) : GlobalState × OSNamespace :=
  if pid = g.g_owner_pid then
    (g, os)
  else
    let seg_name := shm_name
    let mtx_name := seg_name ++ "_mutex"
    let os1 := mutex_remove os mtx_name
    let os2 := shm_remove os1 seg_name
    let os3 := shm_create os2 seg_name
    let os4 := mutex_create os3 mtx_name
    ({ g_segment_name := seg_name
       g_segment_size := shm_size
       g_mutex_name := mtx_name
       g_owner_pid := pid
       g_segment := true
       g_allocator := true
       g_mutex := true
       g_map := some [] }, os4)

/-- Public `deinit()` run by process `pid`: returns immediately when `pid`
differs from `g_owner_pid`; otherwise clears the owner marker, destroys
the map inside the segment when both segment and map are live, resets the
mutex, allocator and segment handles, and removes the named OS objects.
The whole teardown body sits in `try { ... } catch (...) {}` inside a
`noexcept` function, so the embedding is a total function — no exception
escapes. -/
def deinit (pid : Nat) (g : GlobalState) (os : OSNamespace) :
    GlobalState × OSNamespace :=
  if pid ≠ g.g_owner_pid then
    (g, os)
  else
    let g1 := { g with g_owner_pid := 0 }
    let g2 :=
      if g1.g_segment && g1.g_map.isSome then { g1 with g_map := none } else g1
    let g3 := { g2 with g_mutex := false, g_allocator := false, g_segment := false }
    let os1 := mutex_remove os g.g_mutex_name
    let os2 := shm_remove os1 g.g_segment_name
    (g3, os2)

/-- A concrete entry used to exercise the theorems on closed inputs. -/
def entryEx : Alias := mkAlias "203.0.113.7" 10 5

/-- A concrete one-entry cache used to exercise the theorems. -/
def mEx : Cache := [("host1", entryEx)]

/-- Concrete globals of a process that owns the cache (pid 42). -/
def gOwned : GlobalState :=
  { g_segment_name := "irods_hostname_cache"
    g_segment_size := 100
    g_mutex_name := "irods_hostname_cache_mutex"
    g_owner_pid := 42
    g_segment := true
    g_allocator := true
    g_mutex := true
    g_map := some [] }

/-- Concrete OS namespaces holding the named objects of `gOwned`. -/
def osLive : OSNamespace :=
  { shmObjects := ["irods_hostname_cache"]
    mutexObjects := ["irods_hostname_cache_mutex"] }

/-
  Helper lemmas about the embedded map operations.
-/

theorem find_cons_self (m : Cache) (k : String) (e : Alias) :
    find ((k, e) :: m) k = some e := by
  simp [find]

theorem find?_replace_isSome (m : Cache) (k : String) (e : Alias)
    (h : (m.find? (fun p => p.1 == k)).isSome = true) :
    (m.map (fun p => if p.1 == k then (k, e) else p)).find? (fun p => p.1 == k)
      = some (k, e) := by
  induction m with
  | nil => simp at h
  | cons q rest ih =>
    rw [List.map_cons]
    by_cases hq : (q.1 == k) = true
    · rw [if_pos hq]
      exact List.find?_cons_of_pos _ (by simp)
    · rw [if_neg hq, List.find?_cons_of_neg (p := fun p => p.1 == k) (a := q) _ hq]
      apply ih
      rw [List.find?_cons_of_neg (p := fun p => p.1 == k) (a := q) _ hq] at h
      exact h

/-- After `insert_or_assign`, the key maps to the freshly constructed
entry, whether the key was inserted or overwritten. -/
theorem find_insert_or_assign_self (m : Cache) (k v : String) (now ttl : Int) :
    find (insert_or_assign m k v now ttl).1 k = some (mkAlias v (now + ttl) ttl) := by
  unfold insert_or_assign
  by_cases h : (m.find? (fun p => p.1 == k)).isSome = true
  · rw [if_pos h]
    show find (m.map fun p => if p.1 == k then (k, mkAlias v (now + ttl) ttl) else p) k = _
    rw [find, find?_replace_isSome m k _ h]
    rfl
  · rw [if_neg h]
    exact find_cons_self m k _

theorem find_erase_self (m : Cache) (k : String) :
    find (erase m k) k = none := by
  have h : (erase m k).find? (fun p => p.1 == k) = none := by
    rw [List.find?_eq_none]
    intro p hp
    have h2 := (List.mem_filter.mp hp).2
    simpa using h2
  simp [find, h]

theorem erase_eq_self_of_find_none (m : Cache) (k : String)
    (h : find m k = none) : erase m k = m := by
  simp only [find, Option.map_eq_none'] at h
  rw [List.find?_eq_none] at h
  refine List.filter_eq_self.mpr ?_
  intro p hp
  have h2 := h p hp
  simpa using h2

theorem length_filter_not_add_countP (p : α → Bool) (l : List α) :
    (l.filter (fun a => !p a)).length + l.countP p = l.length := by
  induction l with
  | nil => simp
  | cons a t ih =>
    by_cases h : p a <;>
      simp [List.filter_cons, List.countP_cons, h] <;> omega

/-
  The claims.
-/

/-- Claim C1: for every key `k`, `lookup k` returns the stored alias
string if and only if an entry for `k` exists in the map and the current
time is strictly less than that entry's expiration; in every other case
(no entry, or an entry whose expiration has passed but has not been swept)
it returns absent. -/
theorem C1_lookup_contract (m : Cache) (k : String) (now : Int) :
    (∀ e, find m k = some e → now < e.expiration →
      lookup m k now = some e.hostname)
    ∧ (∀ e, find m k = some e → e.expiration ≤ now →
      lookup m k now = none)
    ∧ (find m k = none → lookup m k now = none)
    ∧ (∀ s, lookup m k now = some s →
      ∃ e, find m k = some e ∧ now < e.expiration ∧ s = e.hostname) := by
  refine ⟨?_, ?_, ?_, ?_⟩
  · intro e he hlt
    simp [lookup, he, hlt]
  · intro e he hle
    simp [lookup, he, not_lt.mpr hle]
  · intro he
    simp [lookup, he]
  · intro s hs
    cases hf : find m k with
    | none => simp [lookup, hf] at hs
    | some e =>
      by_cases hlt : now < e.expiration
      · simp [lookup, hf, hlt] at hs
        exact ⟨e, rfl, hlt, hs.symm⟩
      · simp [lookup, hf, hlt] at hs

/-- Claim C2: `erase_expired_entries` removes exactly those entries whose
expiration is less than or equal to the time observed at the start of the
call, leaves every other entry untouched, and decreases `size` by exactly
the number of removed entries. -/
theorem C2_erase_expired_entries_contract (m : Cache) (now : Int) :
    (∀ p ∈ m, p ∈ erase_expired_entries m now ↔ now < p.2.expiration)
    ∧ (∀ p ∈ erase_expired_entries m now, p ∈ m)
    ∧ size (erase_expired_entries m now)
        = size m - m.countP (fun p => decide (now ≥ p.2.expiration)) := by
  refine ⟨?_, ?_, ?_⟩
  · intro p hp
    constructor
    · intro hmem
      have h2 := (List.mem_filter.mp hmem).2
      simpa using h2
    · intro hlt
      exact List.mem_filter.mpr ⟨hp, by simpa using hlt⟩
  · intro p hp
    exact (List.mem_filter.mp hp).1
  · have h := length_filter_not_add_countP
      (fun p => decide (now ≥ p.2.expiration)) m
    rw [size, size, erase_expired_entries]
    omega

/-- Claim C3: `insert_or_assign k v ttl` returns true exactly when no
entry for `k` existed before the call, and false exactly when one existed;
in the overwrite case both the stored alias and the expiration are
replaced and `size` is unchanged. -/
theorem C3_insert_or_assign_contract (m : Cache) (k v : String) (now ttl : Int) :
    ((insert_or_assign m k v now ttl).2 = true ↔ find m k = none)
    ∧ (find m k ≠ none →
      size (insert_or_assign m k v now ttl).1 = size m
      ∧ find (insert_or_assign m k v now ttl).1 k
          = some (mkAlias v (now + ttl) ttl)) := by
  constructor
  · by_cases h : (m.find? (fun p => p.1 == k)).isSome = true
    · rw [insert_or_assign]
      rw [if_pos h]
      simp only [find, Option.map_eq_none', List.find?_eq_none]
      constructor
      · intro hfalse; exact absurd hfalse (by simp)
      · intro hall
        rcases Option.isSome_iff_exists.mp h with ⟨p, hp⟩
        exact absurd (List.find?_some hp) (hall p (List.mem_of_find?_eq_some hp))
    · rw [insert_or_assign, if_neg h]
      simp only [find, Option.map_eq_none']
      constructor
      · intro _
        exact Option.not_isSome_iff_eq_none.mp h
      · intro _; trivial
  · intro hfind
    have hx : m.find? (fun p => p.1 == k) ≠ none := by
      intro hx
      exact hfind (by simp [find, hx])
    have h : (m.find? (fun p => p.1 == k)).isSome = true :=
      Option.isSome_iff_ne_none.mpr hx
    refine ⟨?_, find_insert_or_assign_self m k v now ttl⟩
    rw [insert_or_assign, if_pos h]
    simp [size]

/-- Claim C4: for every key `k`, alias `v` and `ttl` with `ttl > 0` and
`v` within the capacity bound (and NUL-free, as required of a C string),
a `lookup k` performed immediately after `insert_or_assign k v ttl`, with
no intervening time advance past `ttl`, returns `v`. -/
theorem C4_insert_then_lookup (m : Cache) (k v : String) (now ttl : Int)
    (httl : 0 < ttl) (hlen : v.length ≤ 255)
    (hnul : ∀ c ∈ v.data, c ≠ Char.ofNat 0) :
    lookup (insert_or_assign m k v now ttl).1 k now = some v := by
  have hf := find_insert_or_assign_self m k v now ttl
  have hsh : storedHostname v = v := by
    rw [storedHostname, List.takeWhile_eq_self_iff.mpr (by simpa using hnul)]
  simp [lookup, hf, mkAlias, hsh, show now < now + ttl by omega]

/-- Claim C5: the entry created or last updated by `insert_or_assign` has
`expiration = now + expires_after` as computed at the moment of that call,
and a `lookup` call — successful or not — does not mutate any entry or the
cache state. -/
theorem C5_expiration_and_lookup_frame (m : Cache) (k v : String)
    (now ttl : Int) (k' : String) (now' : Int) :
    (∃ e, find (insert_or_assign m k v now ttl).1 k = some e
      ∧ e.expiration = now + e.expiresAfter
      ∧ e.expiresAfter = ttl
      ∧ e.hostname = storedHostname v)
    ∧ lookupState m k' now' = (lookup m k' now', m) :=
  ⟨⟨mkAlias v (now + ttl) ttl, find_insert_or_assign_self m k v now ttl,
    rfl, rfl, rfl⟩, rfl⟩

set_option maxRecDepth 4000 in
/-- Claim C6 fails on the code: the `alias` constructor calls
`strncpy(hostname, _key.data(), _key.size())` with the SOURCE length as
the count, so for an alias string of 257 characters it writes 257 bytes
into the 256-byte `hostname` buffer — it writes past the buffer instead
of truncating or rejecting. -/
theorem C6_strncpy_overflows_buffer :
    strncpyBytesWritten (String.mk (List.replicate 257 'a')) > HOSTNAME_BUF_SIZE := by
  have h : (String.mk (List.replicate 257 'a')).length = 257 := by
    show (List.replicate 257 'a').length = 257
    simp
  show (String.mk (List.replicate 257 'a')).length > HOSTNAME_BUF_SIZE
  rw [h]
  decide

/-- Claim C7: `erase k` removes the entry for `k` when one is present and
is a no-op (not an error) when no entry for `k` exists; in both cases a
subsequent `lookup k` returns absent. -/
theorem C7_erase_contract (m : Cache) (k : String) (now : Int) :
    find (erase m k) k = none
    ∧ (find m k = none → erase m k = m)
    ∧ lookup (erase m k) k now = none := by
  refine ⟨find_erase_self m k, erase_eq_self_of_find_none m k, ?_⟩
  rw [lookup, find_erase_self m k]

/-- Claim C8: a call to `init name size` from the process that is
currently the owner is a no-op: it leaves the segment, map, lock, owner
marker, and all cached entries unchanged. -/
theorem C8_init_noop_for_owner (pid : Nat) (name : String) (sz : Nat)
    (g : GlobalState) (os : OSNamespace) (h : pid = g.g_owner_pid) :
    init pid name sz g os = (g, os) := by
  rw [init, if_pos h]

/-- Claim C9: `deinit` from a non-owner process is a no-op that leaves the
globals and the named OS objects intact; the owner's `deinit` destroys the
map, resets the lock, allocator and segment handles, removes the named OS
objects, and clears the owner marker.  (`deinit` is `noexcept` with its
whole teardown body in `try { } catch (...) { }`, so it is embedded as a
total function: no exception propagates out of the teardown path.) -/
theorem C9_deinit_contract (pid : Nat) (g : GlobalState) (os : OSNamespace) :
    (pid ≠ g.g_owner_pid → deinit pid g os = (g, os))
    ∧ (pid = g.g_owner_pid →
      (deinit pid g os).1.g_owner_pid = 0
      ∧ (g.g_segment = true → (deinit pid g os).1.g_map = none)
      ∧ (deinit pid g os).1.g_mutex = false
      ∧ (deinit pid g os).1.g_allocator = false
      ∧ (deinit pid g os).1.g_segment = false
      ∧ g.g_mutex_name ∉ (deinit pid g os).2.mutexObjects
      ∧ g.g_segment_name ∉ (deinit pid g os).2.shmObjects) := by
  constructor
  · intro h
    rw [deinit, if_pos h]
  · intro h
    have hno : ¬ pid ≠ g.g_owner_pid := by simp [h]
    rw [deinit, if_neg hno]
    refine ⟨?_, ?_, ?_, ?_, ?_, ?_, ?_⟩
    · by_cases hc : g.g_segment && (g.g_map).isSome <;> simp [hc]
    · intro hseg
      cases hm : g.g_map with
      | none => simp [hseg, hm]
      | some c => simp [hseg, hm]
    · by_cases hc : g.g_segment && (g.g_map).isSome <;> simp [hc]
    · by_cases hc : g.g_segment && (g.g_map).isSome <;> simp [hc]
    · by_cases hc : g.g_segment && (g.g_map).isSome <;> simp [hc]
    · simp [mutex_remove, shm_remove, List.mem_filter]
    · simp [mutex_remove, shm_remove, List.mem_filter]

/-- Claim C10: after the owner process successfully calls `deinit`, the
owner marker is reset to 0, which matches no live process id; a
subsequent `init name size` from that same process therefore does not
take the re-entrant no-op path but recreates a fresh, empty cache and
re-establishes that process as owner. -/
theorem C10_deinit_then_init (pid : Nat) (name : String) (sz : Nat)
    (g : GlobalState) (os : OSNamespace)
    (hown : pid = g.g_owner_pid) (hlive : 0 < pid) :
    (deinit pid g os).1.g_owner_pid = 0
    ∧ (init pid name sz (deinit pid g os).1 (deinit pid g os).2).1
        = { g_segment_name := name
            g_segment_size := sz
            g_mutex_name := name ++ "_mutex"
            g_owner_pid := pid
            g_segment := true
            g_allocator := true
            g_mutex := true
            g_map := some [] } := by
  have hno : ¬ pid ≠ g.g_owner_pid := by simp [hown]
  have howner0 : (deinit pid g os).1.g_owner_pid = 0 := by
    rw [deinit, if_neg hno]
    by_cases hc : g.g_segment && (g.g_map).isSome <;> simp [hc]
  refine ⟨howner0, ?_⟩
  have hne : ¬ pid = (deinit pid g os).1.g_owner_pid := by
    rw [howner0]
    omega
  rw [init, if_neg hne]

/-
  Closed witnesses exercising each contract theorem on concrete inputs.
-/

/-- Witness for C1: on the one-entry cache, before the expiration, lookup
returns the stored alias. -/
theorem C1_lookup_contract_witness :
    lookup mEx "host1" 3 = some entryEx.hostname :=
  (C1_lookup_contract mEx "host1" 3).1 entryEx (by decide) (by decide)

/-- Witness for C2: an entry that is not yet expired survives the sweep. -/
theorem C2_erase_expired_entries_witness :
    ("host1", entryEx) ∈ erase_expired_entries mEx 3 :=
  ((C2_erase_expired_entries_contract mEx 3).1 ("host1", entryEx)
    (by decide)).mpr (by decide)

/-- Witness for C3: overwriting the existing entry leaves the size
unchanged. -/
theorem C3_insert_or_assign_witness :
    size (insert_or_assign mEx "host1" "198.51.100.9" 20 7).1 = size mEx :=
  ((C3_insert_or_assign_contract mEx "host1" "198.51.100.9" 20 7).2
    (by decide)).1

/-- Witness for C4: insert-then-lookup at the same instant returns the
alias just inserted. -/
theorem C4_insert_then_lookup_witness :
    lookup (insert_or_assign ([] : Cache) "host1" "192.0.2.1" 100 60).1 "host1" 100
      = some "192.0.2.1" :=
  C4_insert_then_lookup [] "host1" "192.0.2.1" 100 60
    (by decide) (by decide) (by decide)

/-- Witness for C7: erasing an absent key leaves the cache unchanged. -/
theorem C7_erase_witness : erase mEx "absent-host" = mEx :=
  (C7_erase_contract mEx "absent-host" 0).2.1 (by decide)

/-- Witness for C8: a repeated `init` by the owning pid changes nothing. -/
theorem C8_init_noop_witness :
    init 42 "irods_hostname_cache" 100 gOwned osLive = (gOwned, osLive) :=
  C8_init_noop_for_owner 42 "irods_hostname_cache" 100 gOwned osLive (by decide)

/-- Witness for C9: `deinit` by pid 7 (non-owner) is a no-op, while
`deinit` by the owner pid 42 destroys the map. -/
theorem C9_deinit_witness :
    deinit 7 gOwned osLive = (gOwned, osLive)
    ∧ (deinit 42 gOwned osLive).1.g_map = none :=
  ⟨(C9_deinit_contract 7 gOwned osLive).1 (by decide),
   ((C9_deinit_contract 42 gOwned osLive).2 (by decide)).2.1 (by decide)⟩

/-- Witness for C10: after the owner's `deinit`, `init` by the same pid
re-establishes that pid as owner. -/
theorem C10_deinit_then_init_witness :
    (init 42 "cache2" 50 (deinit 42 gOwned osLive).1
      (deinit 42 gOwned osLive).2).1.g_owner_pid = 42 := by
  rw [(C10_deinit_then_init 42 "cache2" 50 gOwned osLive (by decide) (by decide)).2]

end HostnameCache
